import Mathlib

/-!
Verification development for the aiops multi-agent investigation engine.

The definitions below are a shallow embedding of the Python sources:

* `src/aiops/utils/dynamodb_helper.py` (`InvestigationStore`): the DynamoDB
  table is modelled per investigation (items are keyed by
  `(investigation_id, item_type)`, so distinct investigations never interact);
  `TASK#id` items live in an association list keyed by the id embedded in
  `item_type`, with DynamoDB `put_item` replace-or-insert semantics.
  Timestamp attributes (`created_at`, `updated_at`) are irrelevant to every
  property studied here and are omitted.
* `src/aiops/utils/context_store.py` (`InvestigationContextStore`): one row
  per investigation; the row is modelled directly, with the
  `datetime.utcnow().isoformat()` timestamp made an explicit argument.
* `src/aiops/models/data_models.py` (`ExecutionResult.__post_init__`).
* `src/aiops/orchestrator/executor_agent.py` (`ExecutorAgent`).
* `src/aiops/main.py` (`invoke`).
-/

namespace Aiops

/-- Association list lookup, mirroring a DynamoDB `get_item` on a key. -/
def getAssoc {α : Type} (l : List (String × α)) (k : String) : Option α :=
  (l.find? (fun p => p.1 == k)).map Prod.snd

/-- Association list write, mirroring DynamoDB `put_item` / `update_item`
replace-or-insert semantics on a key (every list built here starts empty and
is only written through this function, so keys are unique). -/
def putAssoc {α : Type} : List (String × α) → String → α → List (String × α)
  | [], k, v => [(k, v)]
  | p :: rest, k, v => if p.1 = k then (k, v) :: rest else p :: putAssoc rest k v

theorem getAssoc_nil {α : Type} (k : String) : getAssoc ([] : List (String × α)) k = none := rfl

theorem getAssoc_cons {α : Type} (k1 : String) (v1 : α) (rest : List (String × α))
    (k : String) :
    getAssoc ((k1, v1) :: rest) k = if k1 = k then some v1 else getAssoc rest k := by
  by_cases h : k1 = k
  · subst h
    simp only [getAssoc]
    rw [List.find?_cons_of_pos _ (by simp)]
    simp
  · simp only [getAssoc, if_neg h]
    rw [List.find?_cons_of_neg _ (by simpa using h)]

theorem getAssoc_putAssoc {α : Type} (l : List (String × α)) (k : String) (v : α)
    (k' : String) :
    getAssoc (putAssoc l k v) k' = if k' = k then some v else getAssoc l k' := by
  induction l with
  | nil =>
    by_cases h : k' = k
    · subst h; simp [putAssoc, getAssoc_cons]
    · simp [putAssoc, getAssoc_cons, getAssoc_nil, h, Ne.symm h]
  | cons p rest ih =>
    obtain ⟨k1, v1⟩ := p
    by_cases hpk : k1 = k
    · subst hpk
      by_cases h : k' = k1
      · subst h; simp [putAssoc, getAssoc_cons]
      · simp [putAssoc, getAssoc_cons, h, Ne.symm h]
    · simp only [putAssoc, if_neg hpk, getAssoc_cons, ih]
      by_cases hp' : k1 = k'
      · subst hp'
        simp [hpk]
      · simp [hp']

theorem getAssoc_map_keyed {α β : Type} (f : α → String) (g : α → β) (l : List α)
    (k : String) :
    getAssoc (l.map (fun a => (f a, g a))) k = (l.find? (fun a => f a == k)).map g := by
  induction l with
  | nil => simp [getAssoc]
  | cons a rest ih =>
    by_cases h : f a = k
    · simp only [List.map_cons, getAssoc_cons, if_pos h]
      rw [List.find?_cons_of_pos]
      · rfl
      · simpa using h
    · simp only [List.map_cons, getAssoc_cons, if_neg h]
      rw [List.find?_cons_of_neg, ih]
      simpa using h

/-! ## Task Queue / Workflow Store (`src/aiops/utils/dynamodb_helper.py`) -/

/-- One element of the `tasks` list handed to `InvestigationStore.save_workflow`
(the task dicts produced by planning).  `save_workflow` reads `task_id`,
`agent_type`, `description` and `priority`; a `dependencies` entry may be
present in the dict but is never persisted by `save_workflow`. -/
structure TaskIn where
  task_id : String
  agent_type : String
  description : String
  priority : Int
  dependencies : List String
deriving DecidableEq

/-- A persisted `TASK#id` item.  `complete_task`'s `update_item` creates the
item when it is absent, setting only `status`; the placeholder values used for
the other fields in that case are never read by any operation modelled here. -/
structure TaskRecord where
  task_id : String
  agent_type : String
  description : String
  priority : Int
  status : String
deriving DecidableEq

/-- The `execution_plan` map stored on the `METADATA` item. -/
structure ExecutionPlan where
  current_task : Option String
  completed_tasks : List String
  pending_tasks : List String
deriving DecidableEq

/-- The normalized result dict produced by `ExecutorAgent.execute_task` and
persisted by `complete_task` as the `RESULT#id` item.  The success path also
merges JSON fields parsed from the agent message; those extra fields are
opaque to every property here. -/
structure TaskResult where
  status : String
  message : Option String
  error : Option String
deriving DecidableEq

/-- The store restricted to one investigation: the `METADATA` item's
`execution_plan`, the `TASK#id` items and the `RESULT#id` items. -/
structure StoreState where
  execution_plan : ExecutionPlan
  tasks : List (String × TaskRecord)
  results : List (String × TaskResult)
deriving DecidableEq

/-- The `TASK#id` item written for one input task by `save_workflow`
(`status` starts as `PENDING`; `dependencies` is not persisted). -/
def initRecord (t : TaskIn) : TaskRecord :=
  { task_id := t.task_id, agent_type := t.agent_type, description := t.description,
    priority := t.priority, status := "PENDING" }

/-- `InvestigationStore.save_workflow`: writes the `METADATA` item with
`current_task = task_ids[0] if task_ids else None`, empty `completed_tasks`,
`pending_tasks = task_ids`, then one `TASK#id` item per task. -/
def save_workflow (tasks : List TaskIn) : StoreState :=
  { execution_plan :=
      { current_task := (tasks.map TaskIn.task_id).head?
        completed_tasks := []
        pending_tasks := tasks.map TaskIn.task_id }
    tasks := tasks.foldl (fun acc t => putAssoc acc t.task_id (initRecord t)) []
    results := [] }

/-- `InvestigationStore.get_next_task`: reads `execution_plan.current_task`
from the `METADATA` item; the guard `if not current_task_id: return None` is
falsy — it fires both when the pointer is unset (`None`) and when it is the
empty string — otherwise the corresponding `TASK#id` item is returned (no
dependency or priority inspection of any kind). -/
def get_next_task (s : StoreState) : Option TaskRecord :=
  match s.execution_plan.current_task with
  | none => none
  | some tid => if tid = "" then none else getAssoc s.tasks tid

/-- `InvestigationStore.complete_task`: appends `task_id` to
`completed_tasks` unconditionally, removes it from `pending_tasks` if
present, points `current_task` at the new head of `pending_tasks`, sets the
task item's `status` to `COMPLETED` (creating the item if absent, as
DynamoDB `update_item` does) and writes the `RESULT#task_id` item. -/
def complete_task (s : StoreState) (task_id : String) (result : TaskResult) : StoreState :=
  let completed := s.execution_plan.completed_tasks ++ [task_id]
  let pending := s.execution_plan.pending_tasks.erase task_id
  { execution_plan :=
      { current_task := pending.head?
        completed_tasks := completed
        pending_tasks := pending }
    tasks :=
      match getAssoc s.tasks task_id with
      | some t => putAssoc s.tasks task_id { t with status := "COMPLETED" }
      | none =>
          putAssoc s.tasks task_id
            { task_id := task_id, agent_type := "", description := "", priority := 0,
              status := "COMPLETED" }
    results := putAssoc s.results task_id result }

/-- Status attribute of the `TASK#id` item, if the item exists. -/
def task_status (s : StoreState) (task_id : String) : Option String :=
  (getAssoc s.tasks task_id).map TaskRecord.status

/-- States reachable from a saved plan by any sequence of `complete_task`
calls (with arbitrary task ids and results, covering duplicate or
out-of-order completion messages). -/
inductive Reachable (plan : List TaskIn) : StoreState → Prop
  | init : Reachable plan (save_workflow plan)
  | step (s : StoreState) (tid : String) (r : TaskResult) :
      Reachable plan s → Reachable plan (complete_task s tid r)

/-- Plan validity from the spec data model: every dependency of a task refers
to a task defined earlier in the same list (`prev` accumulates the ids seen
so far). -/
def backwardDeps : List String → List TaskIn → Bool
  | _, [] => true
  | prev, t :: rest =>
      (t.dependencies.all fun d => prev.contains d) && backwardDeps (prev ++ [t.task_id]) rest

theorem getAssoc_append_right {α : Type} (l1 l2 : List (String × α)) (k : String)
    (h : getAssoc l1 k = none) : getAssoc (l1 ++ l2) k = getAssoc l2 k := by
  induction l1 with
  | nil => simp
  | cons p rest ih =>
    obtain ⟨k1, v1⟩ := p
    rw [getAssoc_cons] at h
    by_cases hk : k1 = k
    · simp [hk] at h
    · rw [if_neg hk] at h
      simpa [getAssoc_cons, hk] using ih h

theorem putAssoc_absent {α : Type} (l : List (String × α)) (k : String) (v : α)
    (h : getAssoc l k = none) : putAssoc l k v = l ++ [(k, v)] := by
  induction l with
  | nil => rfl
  | cons p rest ih =>
    obtain ⟨k1, v1⟩ := p
    rw [getAssoc_cons] at h
    by_cases hk : k1 = k
    · simp [hk] at h
    · rw [if_neg hk] at h
      simp [putAssoc, hk, ih h]

theorem foldl_putAssoc_fresh (step : TaskIn → TaskRecord) (plan : List TaskIn) :
    ∀ acc : List (String × TaskRecord),
      (plan.map TaskIn.task_id).Nodup →
      (∀ t ∈ plan, getAssoc acc t.task_id = none) →
      plan.foldl (fun a t => putAssoc a t.task_id (step t)) acc
        = acc ++ plan.map (fun t => (t.task_id, step t)) := by
  induction plan with
  | nil => intro acc _ _; simp
  | cons t0 rest ih =>
    intro acc hnd hacc
    rw [List.map_cons, List.nodup_cons] at hnd
    have hput : putAssoc acc t0.task_id (step t0) = acc ++ [(t0.task_id, step t0)] :=
      putAssoc_absent _ _ _ (hacc t0 (by simp))
    have hfresh : ∀ t ∈ rest, getAssoc (acc ++ [(t0.task_id, step t0)]) t.task_id = none := by
      intro t ht
      have hne : ¬t0.task_id = t.task_id := by
        intro he
        exact hnd.1 (he ▸ List.mem_map_of_mem TaskIn.task_id ht)
      rw [getAssoc_append_right _ _ _ (hacc t (by simp [ht]))]
      simp [getAssoc_cons, hne, getAssoc_nil]
    have := ih (acc ++ [(t0.task_id, step t0)]) hnd.2 hfresh
    simp only [List.foldl_cons, hput, this, List.map_cons]
    simp

theorem save_workflow_tasks (plan : List TaskIn)
    (hnd : (plan.map TaskIn.task_id).Nodup) :
    (save_workflow plan).tasks = plan.map (fun t => (t.task_id, initRecord t)) := by
  simpa using foldl_putAssoc_fresh initRecord plan [] hnd (by intro t _; rfl)

theorem find?_of_mem_map {α : Type} (f : α → String) (l : List α) (i : String)
    (h : i ∈ l.map f) :
    ∃ a, l.find? (fun a => f a == i) = some a ∧ f a = i := by
  induction l with
  | nil => simp at h
  | cons b rest ih =>
    by_cases hb : f b = i
    · refine ⟨b, ?_, hb⟩
      rw [List.find?_cons_of_pos _ (by simpa using hb)]
    · have h' : i ∈ rest.map f := by
        rcases (by simpa using h : i = f b ∨ ∃ a ∈ rest, f a = i) with h1 | h1
        · exact absurd h1.symm hb
        · simpa using h1
      obtain ⟨a, ha1, ha2⟩ := ih h'
      refine ⟨a, ?_, ha2⟩
      rw [List.find?_cons_of_neg _ (by simpa using hb), ha1]

theorem filter_eq_cons_split {α : Type} (p : α → Bool) :
    ∀ (l : List α) (x : α) (xs : List α), l.filter p = x :: xs →
      ∃ l1 l2, l = l1 ++ x :: l2 ∧ (∀ y ∈ l1, p y = false) ∧ p x = true := by
  intro l
  induction l with
  | nil => intro x xs h; simp at h
  | cons a rest ih =>
    intro x xs h
    by_cases hpa : p a
    · rw [List.filter_cons_of_pos hpa] at h
      obtain ⟨h1, _⟩ := List.cons_eq_cons.mp h
      exact ⟨[], rest, by simp [h1], by simp, h1 ▸ hpa⟩
    · rw [List.filter_cons_of_neg (by simpa using hpa)] at h
      obtain ⟨l1, l2, h1, h2, h3⟩ := ih x xs h
      refine ⟨a :: l1, l2, by simp [h1], ?_, h3⟩
      intro y hy
      rcases List.mem_cons.mp hy with hy1 | hy1
      · exact hy1 ▸ (by simpa using hpa)
      · exact h2 y hy1

theorem map_eq_append_cons_split {α β : Type} (f : α → β) :
    ∀ (l : List α) (l1 : List β) (x : β) (l2 : List β), l.map f = l1 ++ x :: l2 →
      ∃ p1 a p2, l = p1 ++ a :: p2 ∧ p1.map f = l1 ∧ f a = x := by
  intro l
  induction l with
  | nil => intro l1 x l2 h; simp at h
  | cons b rest ih =>
    intro l1 x l2 h
    cases l1 with
    | nil =>
      obtain ⟨h1, _⟩ := List.cons_eq_cons.mp (by simpa using h)
      exact ⟨[], b, rest, by simp, by simp, h1⟩
    | cons c l1' =>
      obtain ⟨h1, h2⟩ := List.cons_eq_cons.mp (by simpa using h)
      obtain ⟨p1, a, p2, g1, g2, g3⟩ := ih l1' x l2 h2
      exact ⟨b :: p1, a, p2, by simp [g1], by simp [g2, h1], g3⟩

theorem backwardDeps_split (tp : TaskIn) (p2 : List TaskIn) :
    ∀ (p1 : List TaskIn) (prev : List String),
      backwardDeps prev (p1 ++ tp :: p2) = true →
      ∀ d ∈ tp.dependencies, d ∈ prev ++ p1.map TaskIn.task_id := by
  intro p1
  induction p1 with
  | nil =>
    intro prev h d hd
    simp only [List.nil_append, backwardDeps, Bool.and_eq_true, List.all_eq_true] at h
    simpa using List.mem_of_elem_eq_true (h.1 d hd)
  | cons a p1' ih =>
    intro prev h d hd
    simp only [List.cons_append, backwardDeps, Bool.and_eq_true] at h
    have := ih (prev ++ [a.task_id]) h.2 d hd
    simpa [List.append_assoc] using this

/-- Boolean test: the `TASK#i` item exists and its status is `PENDING`. -/
def pendingB (s : StoreState) (i : String) : Bool :=
  match getAssoc s.tasks i with
  | some t => t.status == "PENDING"
  | none => false

/-- Inductive invariant of the store for a saved plan with distinct task ids:
the pending list is the original id list filtered to the still-`PENDING`
tasks, the execution pointer is its head, and every planned task has a stored
item whose `task_id` matches its key and whose status is `PENDING` or
`COMPLETED`. -/
structure Inv (plan : List TaskIn) (s : StoreState) : Prop where
  tasks_wf : ∀ i ∈ plan.map TaskIn.task_id,
      ∃ t, getAssoc s.tasks i = some t ∧ t.task_id = i ∧
        (t.status = "PENDING" ∨ t.status = "COMPLETED")
  pending_eq : s.execution_plan.pending_tasks
      = (plan.map TaskIn.task_id).filter (pendingB s)
  current_eq : s.execution_plan.current_task = s.execution_plan.pending_tasks.head?

theorem inv_init (plan : List TaskIn) (hnd : (plan.map TaskIn.task_id).Nodup) :
    Inv plan (save_workflow plan) := by
  have hlook : ∀ i ∈ plan.map TaskIn.task_id,
      ∃ a, getAssoc (save_workflow plan).tasks i = some (initRecord a) ∧ a.task_id = i := by
    intro i hi
    obtain ⟨a, ha1, ha2⟩ := find?_of_mem_map TaskIn.task_id plan i hi
    refine ⟨a, ?_, ha2⟩
    rw [save_workflow_tasks plan hnd, getAssoc_map_keyed, ha1]
    rfl
  refine ⟨?_, ?_, rfl⟩
  · intro i hi
    obtain ⟨a, ha1, ha2⟩ := hlook i hi
    exact ⟨initRecord a, ha1, ha2, Or.inl rfl⟩
  · have hall : ∀ i ∈ plan.map TaskIn.task_id, pendingB (save_workflow plan) i = true := by
      intro i hi
      obtain ⟨a, ha1, _⟩ := hlook i hi
      simp [pendingB, ha1, initRecord]
    exact (List.filter_eq_self.mpr hall).symm

theorem complete_task_tasks_self_of_some (s : StoreState) (tid : String) (r : TaskResult)
    (t0 : TaskRecord) (h : getAssoc s.tasks tid = some t0) :
    getAssoc (complete_task s tid r).tasks tid = some { t0 with status := "COMPLETED" } := by
  unfold complete_task
  simp [h, getAssoc_putAssoc]

theorem complete_task_tasks_ne (s : StoreState) (tid : String) (r : TaskResult)
    (i : String) (hne : ¬i = tid) :
    getAssoc (complete_task s tid r).tasks i = getAssoc s.tasks i := by
  unfold complete_task
  cases h : getAssoc s.tasks tid <;> simp [getAssoc_putAssoc, h, hne]

theorem complete_task_status_self (s : StoreState) (tid : String) (r : TaskResult) :
    task_status (complete_task s tid r) tid = some "COMPLETED" := by
  unfold task_status complete_task
  cases h : getAssoc s.tasks tid <;> simp [getAssoc_putAssoc, h]

theorem pendingB_complete_self (s : StoreState) (tid : String) (r : TaskResult) :
    pendingB (complete_task s tid r) tid = false := by
  have h := complete_task_status_self s tid r
  unfold task_status at h
  unfold pendingB
  cases hg : getAssoc (complete_task s tid r).tasks tid with
  | none => rfl
  | some t =>
    rw [hg] at h
    simp only [Option.map_some'] at h
    have : t.status = "COMPLETED" := by simpa using h
    simp [this]

theorem pendingB_complete_ne (s : StoreState) (tid : String) (r : TaskResult)
    (i : String) (hne : ¬i = tid) :
    pendingB (complete_task s tid r) i = pendingB s i := by
  unfold pendingB
  rw [complete_task_tasks_ne s tid r i hne]

theorem inv_step (plan : List TaskIn) (hnd : (plan.map TaskIn.task_id).Nodup)
    (s : StoreState) (inv : Inv plan s) (tid : String) (r : TaskResult) :
    Inv plan (complete_task s tid r) := by
  refine ⟨?_, ?_, rfl⟩
  · intro i hi
    by_cases hit : i = tid
    · subst hit
      obtain ⟨t0, h1, h2, _⟩ := inv.tasks_wf i hi
      exact ⟨{ t0 with status := "COMPLETED" },
        complete_task_tasks_self_of_some s i r t0 h1, h2, Or.inr rfl⟩
    · obtain ⟨t0, h1, h2, h3⟩ := inv.tasks_wf i hi
      exact ⟨t0, (complete_task_tasks_ne s tid r i hit).trans h1, h2, h3⟩
  · have hpend : (complete_task s tid r).execution_plan.pending_tasks
        = s.execution_plan.pending_tasks.erase tid := rfl
    rw [hpend, inv.pending_eq]
    have hnodup : ((plan.map TaskIn.task_id).filter (pendingB s)).Nodup :=
      hnd.filter _
    rw [hnodup.erase_eq_filter, List.filter_filter]
    apply List.filter_congr
    intro i hi
    by_cases hit : i = tid
    · subst hit
      simp [pendingB_complete_self]
    · simp [pendingB_complete_ne s tid r i hit, hit]

theorem inv_reachable (plan : List TaskIn) (hnd : (plan.map TaskIn.task_id).Nodup)
    (s : StoreState) (h : Reachable plan s) : Inv plan s := by
  induction h with
  | init => exact inv_init plan hnd
  | step s' tid r _ ih => exact inv_step plan hnd s' ih tid r

/-! ## Investigation Context (`src/aiops/utils/context_store.py`) -/

/-- A finding dict written under `findings.{task_id}_{agent_type}`.
`result` abstracts the processed agent message; `status` mirrors the
`result.get("status", "completed")` entry built by the Executor;
`last_updated` is the timestamp `update_finding` stamps onto the dict. -/
structure FindingData where
  result : String
  status : String
  last_updated : String
deriving DecidableEq

/-- One element of the context `timeline` list. -/
structure TimelineEvent where
  timestamp : String
  event : String
  source : String
deriving DecidableEq

/-- The single context row of one investigation
(`aiops-investigation-context` table).  Confidence values are exact
rationals standing for the Python floats (stored as `Decimal` by
`convert_floats`); `metrics_snapshot` is opaque and omitted. -/
structure ContextItem where
  investigation_id : String
  alarm_summary : String
  status : String
  confidence : Rat
  current_hypothesis : String
  root_cause_candidates : List String
  findings : List (String × FindingData)
  timeline : List TimelineEvent
  created_at : String
  updated_at : String
  version : Nat
deriving DecidableEq

/-- `InvestigationContextStore.create_context`: an unconditional `put_item`
(no condition expression), so it writes the fresh row whether or not a row
for the investigation already exists.  `ts` stands for
`datetime.utcnow().isoformat()`. -/
def create_context (_prior : Option ContextItem) (investigation_id : String)
    (alarm_summary : String) (ts : String) : Option ContextItem :=
  some
    { investigation_id := investigation_id
      alarm_summary := alarm_summary
      status := "IN_PROGRESS"
      confidence := 0
      current_hypothesis := ""
      root_cause_candidates := []
      findings := []
      timeline := []
      created_at := ts
      updated_at := ts
      version := 0 }

/-- `InvestigationContextStore.update_finding`: stamps `last_updated` on the
finding dict, then `SET findings.#key = :data, updated_at = :time,
version = version + 1` on the existing row (DynamoDB raises on a missing
row because of the `version + :inc` read, so the operation is modelled on an
existing `ContextItem`). -/
def update_finding (c : ContextItem) (task_id : String) (agent_type : String)
    (finding_data : FindingData) (ts : String) : ContextItem :=
  { c with
    findings := putAssoc c.findings (task_id ++ "_" ++ agent_type)
      { finding_data with last_updated := ts }
    updated_at := ts
    version := c.version + 1 }

/-- `InvestigationContextStore.add_timeline_event`:
`SET timeline = list_append(if_not_exists(timeline, :empty), :event),
updated_at = :time, version = version + 1`. -/
def add_timeline_event (c : ContextItem) (event : String) (source : String)
    (ts : String) : ContextItem :=
  { c with
    timeline := c.timeline ++ [{ timestamp := ts, event := event, source := source }]
    updated_at := ts
    version := c.version + 1 }

/-- `InvestigationContextStore.update_hypothesis`:
`SET current_hypothesis = :hyp, confidence = :conf,
root_cause_candidates = :candidates, updated_at = :time,
version = version + 1`.  The Python performs no validation of any argument. -/
def update_hypothesis (c : ContextItem) (hypothesis : String) (confidence : Rat)
    (candidates : List String) (ts : String) : ContextItem :=
  { c with
    current_hypothesis := hypothesis
    confidence := confidence
    root_cause_candidates := candidates
    updated_at := ts
    version := c.version + 1 }

/-- `InvestigationContextStore.update_status`:
`SET #status = :status, updated_at = :time, version = version + 1`. -/
def update_status (c : ContextItem) (status : String) (ts : String) : ContextItem :=
  { c with
    status := status
    updated_at := ts
    version := c.version + 1 }

/-- `InvestigationContextStore.get_context`: a `get_item` read returning the
row (or `None`); it issues no write, so the store is untouched. -/
def get_context (store : Option ContextItem) : Option ContextItem :=
  store

/-! ## Data models (`src/aiops/models/data_models.py`) -/

/-- The `ExecutionStatus` enum from `src/aiops/models/enums.py`. -/
inductive ExecutionStatus
  | pending
  | running
  | completed
  | failed
  | skipped
  | timeout
deriving DecidableEq

/-- The `ExecutionResult` dataclass.  `findings` is an opaque key/value map;
float fields are exact rationals. -/
structure ExecutionResult where
  step_id : String
  status : ExecutionStatus
  findings : List (String × String)
  confidence_score : Rat
  next_recommended_steps : List String
  execution_time : Rat
  error_message : Option String
deriving DecidableEq

/-- Construction of an `ExecutionResult` together with its `__post_init__`
validation: `if not 0.0 <= self.confidence_score <= 1.0: raise
ValueError("Confidence score must be between 0.0 and 1.0")`.  The value is
stored exactly as supplied, never clamped. -/
def mkExecutionResult (step_id : String) (status : ExecutionStatus)
    (findings : List (String × String)) (confidence_score : Rat)
    (next_recommended_steps : List String) (execution_time : Rat)
    (error_message : Option String) : Except String ExecutionResult :=
  if 0 ≤ confidence_score ∧ confidence_score ≤ 1 then
    Except.ok
      { step_id := step_id
        status := status
        findings := findings
        confidence_score := confidence_score
        next_recommended_steps := next_recommended_steps
        execution_time := execution_time
        error_message := error_message }
  else
    Except.error "Confidence score must be between 0.0 and 1.0"

/-! ## Executor (`src/aiops/orchestrator/executor_agent.py`) -/

/-- `ExecutorAgent.execute_task`: the whole body (gateway lookup, MCP client,
tool loading, agent run, JSON extraction) sits inside `try/except Exception`;
the external worker dispatch is abstracted as `dispatch`.  A raised exception
is caught and converted into `mk_return ("status": "error", "error": str(e));
the success path returns a dict with `"status": "completed"` and the agent
message (plus parsed JSON fields, opaque here).  The early
no-gateway-configured return is likewise an error-shaped dict and is covered
by the `Except.error` case. -/
def execute_task (dispatch : Except String String) : TaskResult :=
  match dispatch with
  | Except.ok message => { status := "completed", message := some message, error := none }
  | Except.error e => { status := "error", message := none, error := some e }

/-- The `finding_data` dict built in `ExecutorAgent.execute_workflow` from the
processed result: its `result` entry carries the (agent-config processed)
message, its `status` entry is `result.get("status", "completed")`.
`process_agent_result` returns its input unchanged whenever the agent config
is absent or its processing raises; the message transformation itself is
opaque to every property studied here.  `last_updated` is overwritten by
`update_finding`. -/
def finding_of (r : TaskResult) : FindingData :=
  { result := (r.message.getD (r.error.getD ""))
    status := r.status
    last_updated := "" }

/-- Observable side effects of one `execute_workflow` invocation, in program
order: the task-queue read, the two Context writes, the queue completion
transition, the optional status update and the optional SQS re-evaluation
message. -/
inductive ExecEvent
  | getNextTask
  | updateFinding (task_id : String) (agent_type : String)
  | addTimelineEvent (event : String) (source : String)
  | completeTask (task_id : String)
  | updateStatus (status : String)
  | sendSqsReEvaluate
deriving DecidableEq

/-- The dict returned by `ExecutorAgent.execute_workflow`. -/
structure WorkflowReturn where
  status : String
  task_id : Option String
  error : Option String
deriving DecidableEq

/-- The result of one `execute_workflow` invocation: both stores afterwards,
the returned dict and the trace of effects in program order. -/
structure WorkflowOutput where
  store : StoreState
  context : ContextItem
  ret : WorkflowReturn
  trace : List ExecEvent
deriving DecidableEq

/-- `ExecutorAgent.execute_workflow` for one invocation, lines 43-113 of
`executor_agent.py`: pull the current task (`get_next_task`), run it
(`execute_task`, which never lets the dispatch exception escape), write the
finding and the timeline event into the Context, then `complete_task`; a
`RootCauseAnalysisAgent` task additionally sets the context status
`COMPLETED` and returns `investigation_completed`, any other agent type
enqueues a `RE_EVALUATE` message when `INVESTIGATION_QUEUE_URL` is set
(`has_queue_url`) and returns `completed`.  The Context row is assumed
present (it is created at alarm ingestion); storage writes are modelled
total, so the surrounding `try/except` (which converts storage/SQS faults
into an error dict) has no failing branch to model here. -/
def execute_workflow (s : StoreState) (c : ContextItem)
    (dispatch : Except String String) (ts : String) (has_queue_url : Bool) :
    WorkflowOutput :=
  match get_next_task s with
  | none =>
      { store := s, context := c
        ret := { status := "no_tasks", task_id := none, error := none }
        trace := [ExecEvent.getNextTask] }
  | some task =>
      let result := execute_task dispatch
      let c1 := update_finding c task.task_id task.agent_type (finding_of result) ts
      let event := "Task " ++ task.task_id ++ " completed by " ++ task.agent_type
      let c2 := add_timeline_event c1 event task.agent_type ts
      let s1 := complete_task s task.task_id result
      if task.agent_type = "RootCauseAnalysisAgent" then
        { store := s1
          context := update_status c2 "COMPLETED" ts
          ret := { status := "investigation_completed", task_id := some task.task_id,
                   error := none }
          trace := [ExecEvent.getNextTask,
                    ExecEvent.updateFinding task.task_id task.agent_type,
                    ExecEvent.addTimelineEvent event task.agent_type,
                    ExecEvent.completeTask task.task_id,
                    ExecEvent.updateStatus "COMPLETED"] }
      else
        { store := s1
          context := c2
          ret := { status := "completed", task_id := some task.task_id, error := none }
          trace := [ExecEvent.getNextTask,
                    ExecEvent.updateFinding task.task_id task.agent_type,
                    ExecEvent.addTimelineEvent event task.agent_type,
                    ExecEvent.completeTask task.task_id]
            ++ (if has_queue_url then [ExecEvent.sendSqsReEvaluate] else []) }

/-! ## Coordinator entry point (`src/aiops/main.py`) -/

/-- The payload dict received by `invoke`; absent keys are `none`. -/
structure InvokePayload where
  message_type : Option String
  investigation_id : Option String
  alarm : Option String
  prompt : Option String

/-- The dict returned by `invoke` on the `EXECUTION` path. -/
structure InvokeResponse where
  investigation_id : Option String
  status : String
  result : Option WorkflowReturn

/-- Calling `BrainAgent()` with no arguments, as `main.py` lines 26 and 35
do: `BrainAgent.__init__` (`src/aiops/orchestrator/brain_agent.py` line 21)
requires the positional argument `system_state`, so Python raises `TypeError`
before any body code runs. -/
def brain_agent_no_args : Except String Unit :=
  Except.error "TypeError: BrainAgent.__init__ missing 1 required positional argument: system_state"

/-- `invoke` (`src/aiops/main.py` lines 10-41).  `message_type` defaults to
`MessageType.ALARM.value = "ALARM"`.  The `EXECUTION` branch constructs an
`ExecutorAgent` and wraps its (total) `execute_workflow` result; the
`RE_EVALUATE` and default (`ALARM`) branches construct `BrainAgent()` with no
arguments, which raises; had construction succeeded, the called methods
`re_evaluate_workflow` and `process_alarm_text` do not exist on the class,
so an `AttributeError` would follow.  `invoke` has no `try/except`, so
`Except.error` models an exception escaping the entry point. -/
def invoke (payload : InvokePayload) (executor_run : Option String → WorkflowReturn) :
    Except String InvokeResponse :=
  let message_type := payload.message_type.getD "ALARM"
  if message_type = "EXECUTION" then
    Except.ok
      { investigation_id := payload.investigation_id
        status := "execution_ongoing"
        result := some (executor_run payload.investigation_id) }
  else if message_type = "RE_EVALUATE" then
    brain_agent_no_args.bind fun _ =>
      Except.error "AttributeError: BrainAgent has no attribute re_evaluate_workflow"
  else
    brain_agent_no_args.bind fun _ =>
      Except.error "AttributeError: BrainAgent has no attribute process_alarm_text"

theorem putAssoc_length_of_found {α : Type} (l : List (String × α)) (k : String) (v : α)
    (h : ¬getAssoc l k = none) : (putAssoc l k v).length = l.length := by
  induction l with
  | nil => exact absurd rfl h
  | cons p rest ih =>
    obtain ⟨k1, v1⟩ := p
    by_cases hk : k1 = k
    · simp [putAssoc, hk]
    · rw [getAssoc_cons, if_neg hk] at h
      simp [putAssoc, hk, ih h]

theorem complete_task_result_self (s : StoreState) (tid : String) (r : TaskResult) :
    getAssoc (complete_task s tid r).results tid = some r := by
  unfold complete_task
  cases h : getAssoc s.tasks tid <;> simp [getAssoc_putAssoc, h]

/-! ## Concrete inputs used by the claim analyses -/

/-- A plan whose first task declares a dependency on the second (later) task.
`save_workflow` accepts it without validation. -/
def fwdPlan : List TaskIn :=
  [{ task_id := "t1", agent_type := "MetricsAgent", description := "analyze metric",
     priority := 1, dependencies := ["t2"] },
   { task_id := "t2", agent_type := "LogsAgent", description := "collect logs",
     priority := 1, dependencies := [] }]

/-- A dependency-ordered plan: the second task depends on the first. -/
def okPlan : List TaskIn :=
  [{ task_id := "t1", agent_type := "MetricsAgent", description := "analyze metric",
     priority := 1, dependencies := [] },
   { task_id := "t2", agent_type := "LogsAgent", description := "collect logs",
     priority := 1, dependencies := ["t1"] }]

/-- Scenario B of the spec: task A has priority 2, task B priority 1, no
dependencies. -/
def prioPlan : List TaskIn :=
  [{ task_id := "A", agent_type := "MetricsAgent", description := "analyze metric",
     priority := 2, dependencies := [] },
   { task_id := "B", agent_type := "LogsAgent", description := "collect logs",
     priority := 1, dependencies := [] }]

/-- A successful task result dict. -/
def okResult : TaskResult := { status := "completed", message := some "ok", error := none }

/-- The store after saving `okPlan` and completing task `t1`. -/
def okState : StoreState := complete_task (save_workflow okPlan) "t1" okResult

/-- A freshly created context row (the row `create_context` writes). -/
def ctx0 : ContextItem :=
  { investigation_id := "inv-1", alarm_summary := "HighCPU", status := "IN_PROGRESS",
    confidence := 0, current_hypothesis := "", root_cause_candidates := [],
    findings := [], timeline := [], created_at := "t0", updated_at := "t0", version := 0 }

/-! ## Claim C1 -/

/-- C1, counterexample: `save_workflow` performs no plan validation and
`get_next_task` inspects no dependencies at all, so after saving `fwdPlan`
(whose first task `t1` depends on the later task `t2`) the task returned is
`t1` while its declared dependency `t2` is still `PENDING` — refuting the
claim for this saved plan with the empty completion sequence. -/
theorem c1_forward_dep_counterexample :
    (get_next_task (save_workflow fwdPlan)).map TaskRecord.task_id = some "t1"
    ∧ fwdPlan.head?.map TaskIn.dependencies = some ["t2"]
    ∧ task_status (save_workflow fwdPlan) "t2" = some "PENDING" :=
  ⟨rfl, rfl, rfl⟩

/-- C1 (amended): for every saved plan with distinct task ids whose
dependencies reference only earlier tasks in the list (the spec's plan
validity condition), in every state reachable by any sequence of
`complete_task` calls, a task returned by `get_next_task` has all its
declared dependencies `COMPLETED`.  Without the ordering restriction the
guarantee fails (see the counterexample), and there is no distinguishable
stalled outcome: the store has no FAILED/TIMEOUT transition, and
`get_next_task` yields `none` exactly when `current_task` is unset. -/
theorem c1_next_task_deps_completed (plan : List TaskIn)
    (hnd : (plan.map TaskIn.task_id).Nodup)
    (hdeps : backwardDeps [] plan = true)
    (s : StoreState) (hr : Reachable plan s)
    (t : TaskRecord) (ht : get_next_task s = some t)
    (tin : TaskIn) (hmem : tin ∈ plan) (hid : tin.task_id = t.task_id) :
    ∀ d ∈ tin.dependencies, task_status s d = some "COMPLETED" := by
  intro d hd
  have inv := inv_reachable plan hnd s hr
  cases hcur : s.execution_plan.current_task with
  | none =>
    unfold get_next_task at ht
    rw [hcur] at ht
    exact absurd ht (by simp)
  | some tid =>
    unfold get_next_task at ht
    rw [hcur] at ht
    change (if tid = "" then none else getAssoc s.tasks tid) = some t at ht
    by_cases htid : tid = ""
    · rw [if_pos htid] at ht
      exact absurd ht (by simp)
    rw [if_neg htid] at ht
    have hhead : s.execution_plan.pending_tasks.head? = some tid := by
      rw [← inv.current_eq]; exact hcur
    cases hp : s.execution_plan.pending_tasks with
    | nil => rw [hp] at hhead; simp at hhead
    | cons ptid prest =>
      rw [hp] at hhead
      have hpt : ptid = tid := by simpa using hhead
      subst hpt
      have hfil : (plan.map TaskIn.task_id).filter (pendingB s) = ptid :: prest := by
        rw [← inv.pending_eq]; exact hp
      obtain ⟨l1, l2, hsplit, hfalse, _⟩ := filter_eq_cons_split _ _ _ _ hfil
      obtain ⟨p1, a, p2, hplan, hmap, hfa⟩ :=
        map_eq_append_cons_split TaskIn.task_id plan l1 ptid l2 hsplit
      have hptid_mem : ptid ∈ plan.map TaskIn.task_id := by
        rw [hsplit]; exact List.mem_append_right _ (List.mem_cons_self _ _)
      obtain ⟨t', ht', htid', _⟩ := inv.tasks_wf ptid hptid_mem
      have htt : t' = t := Option.some.inj (ht'.symm.trans ht)
      have hamem : a ∈ plan := by
        rw [hplan]; exact List.mem_append_right _ (List.mem_cons_self _ _)
      have htin_a : tin = a := by
        apply List.inj_on_of_nodup_map hnd hmem hamem
        rw [hid, ← htt, htid', ← hfa]
      subst htin_a
      rw [hplan] at hdeps
      have hdl1 : d ∈ l1 := by
        have := backwardDeps_split tin p2 p1 [] hdeps d hd
        simpa [hmap] using this
      have hdmem : d ∈ plan.map TaskIn.task_id := by
        rw [hsplit]; exact List.mem_append_left _ hdl1
      obtain ⟨td, htd, _, hst⟩ := inv.tasks_wf d hdmem
      have hpB : pendingB s d = false := hfalse d hdl1
      have hpB2 : (td.status == "PENDING") = false := by
        unfold pendingB at hpB
        rw [htd] at hpB
        exact hpB
      rcases hst with h1 | h1
      · rw [h1] at hpB2; simp at hpB2
      · unfold task_status
        rw [htd]
        simp [h1]

/-- C1 witness: for the dependency-ordered plan `okPlan`, after completing
`t1` the returned task is `t2` and its dependency `t1` is `COMPLETED`. -/
theorem c1_next_task_deps_completed_witness :
    task_status okState "t1" = some "COMPLETED" :=
  c1_next_task_deps_completed okPlan (by decide) (by decide) okState
    (Reachable.step (save_workflow okPlan) "t1" okResult Reachable.init)
    { task_id := "t2", agent_type := "LogsAgent", description := "collect logs",
      priority := 1, status := "PENDING" }
    (by decide)
    { task_id := "t2", agent_type := "LogsAgent", description := "collect logs",
      priority := 1, dependencies := ["t1"] }
    (by decide) rfl "t1" (by decide)

/-! ## Claim C2 -/

/-- C2, counterexample: for Scenario B (`prioPlan`: A priority 2, B priority
1, no dependencies) the first task returned is `A` — the head of the task
list — not the lower-priority-value `B` the claim requires; priorities are
never consulted. -/
theorem c2_priority_ignored_counterexample :
    (get_next_task (save_workflow prioPlan)).map TaskRecord.task_id = some "A"
    ∧ prioPlan.map TaskIn.priority = [2, 1] :=
  ⟨rfl, rfl⟩

/-- C2 (amended): on a freshly saved plan with at least one task, distinct
task ids and a nonempty head task id, `get_next_task` returns the first task
of the task list (as saved, with status `PENDING`), regardless of the
priorities of any task.  Both side conditions are necessary: with duplicate
ids the later `put_item` overwrites the earlier `TASK#id` item, so the last
duplicate's record is returned, and with an empty head task id the falsy
`if not current_task_id` guard returns `None`. -/
theorem c2_first_task_list_order (t0 : TaskIn) (rest : List TaskIn)
    (hnd : ((t0 :: rest).map TaskIn.task_id).Nodup)
    (hne : ¬t0.task_id = "") :
    get_next_task (save_workflow (t0 :: rest)) = some (initRecord t0) := by
  have hcur : get_next_task (save_workflow (t0 :: rest))
      = if t0.task_id = "" then none
        else getAssoc (save_workflow (t0 :: rest)).tasks t0.task_id := rfl
  rw [hcur, if_neg hne]
  rw [save_workflow_tasks _ hnd, getAssoc_map_keyed]
  rw [List.find?_cons_of_pos _ (by simp)]
  rfl

/-- C2 witness: on `prioPlan` the returned task is `A` with priority 2. -/
theorem c2_first_task_list_order_witness :
    get_next_task (save_workflow prioPlan)
      = some { task_id := "A", agent_type := "MetricsAgent",
               description := "analyze metric", priority := 2, status := "PENDING" } :=
  c2_first_task_list_order
    { task_id := "A", agent_type := "MetricsAgent", description := "analyze metric",
      priority := 2, dependencies := [] }
    [{ task_id := "B", agent_type := "LogsAgent", description := "collect logs",
       priority := 1, dependencies := [] }]
    (by decide) (by decide)

/-! ## Claim C3 -/

/-- C3, counterexample: completing task `A` of `prioPlan` twice neither
no-ops nor fails — the second call appends `A` to `completed_tasks` a second
time (there is no `InvalidTransitionError` anywhere in the code, and
`complete_task` is total), while the pending list, the execution pointer and
the task status are left as the first completion set them. -/
theorem c3_double_complete_counterexample :
    (complete_task (complete_task (save_workflow prioPlan) "A" okResult) "A" okResult).execution_plan.completed_tasks
      = ["A", "A"]
    ∧ (complete_task (complete_task (save_workflow prioPlan) "A" okResult) "A" okResult).execution_plan.pending_tasks
        = ["B"]
    ∧ (complete_task (complete_task (save_workflow prioPlan) "A" okResult) "A" okResult).execution_plan.current_task
        = some "B"
    ∧ task_status (complete_task (complete_task (save_workflow prioPlan) "A" okResult) "A" okResult) "A"
        = some "COMPLETED" :=
  ⟨rfl, rfl, rfl, rfl⟩

/-- C3 (amended): `complete_task` always appends the task id to
`completed_tasks`, even when the task is already `COMPLETED` — a duplicate
call therefore double-appends to the queue's completed list; the Context
findings, in contrast, are keyed per `task_id_agent_type` with
replace-or-insert semantics, so a duplicate `update_finding` does not grow
the findings map but rebinds the key to the latest finding dict. -/
theorem c3_complete_task_appends (s : StoreState) (tid : String) (r : TaskResult)
    (c : ContextItem) (task_id agent_type : String) (f1 f2 : FindingData)
    (ts1 ts2 : String) :
    (complete_task s tid r).execution_plan.completed_tasks
      = s.execution_plan.completed_tasks ++ [tid]
    ∧ (update_finding (update_finding c task_id agent_type f1 ts1)
          task_id agent_type f2 ts2).findings.length
      = (update_finding c task_id agent_type f1 ts1).findings.length
    ∧ getAssoc (update_finding (update_finding c task_id agent_type f1 ts1)
          task_id agent_type f2 ts2).findings (task_id ++ "_" ++ agent_type)
      = some { f2 with last_updated := ts2 } := by
  refine ⟨rfl, ?_, ?_⟩
  · show (putAssoc (putAssoc c.findings (task_id ++ "_" ++ agent_type)
        { f1 with last_updated := ts1 }) (task_id ++ "_" ++ agent_type)
        { f2 with last_updated := ts2 }).length
      = (putAssoc c.findings (task_id ++ "_" ++ agent_type)
        { f1 with last_updated := ts1 }).length
    apply putAssoc_length_of_found
    rw [getAssoc_putAssoc]
    simp
  · show getAssoc (putAssoc (putAssoc c.findings (task_id ++ "_" ++ agent_type)
        { f1 with last_updated := ts1 }) (task_id ++ "_" ++ agent_type)
        { f2 with last_updated := ts2 }) (task_id ++ "_" ++ agent_type)
      = some { f2 with last_updated := ts2 }
    rw [getAssoc_putAssoc]
    simp

/-! ## Claim C4 -/

/-- The output of one executor invocation on `okPlan` where the worker
dispatch raises. -/
def c4out : WorkflowOutput :=
  execute_workflow (save_workflow okPlan) ctx0 (Except.error "boom") "ts1" true

/-- C4, counterexample: when the worker dispatch raises, the exception is
caught, but the task is then marked `COMPLETED` — not `FAILED` — and the
invocation returns status `completed`; no `FAILED` status or `error_message`
attribute is ever written (the exception text only lands inside the stored
result dict). -/
theorem c4_dispatch_error_counterexample :
    task_status c4out.store "t1" = some "COMPLETED"
    ∧ c4out.ret.status = "completed"
    ∧ getAssoc c4out.store.results "t1"
        = some { status := "error", message := none, error := some "boom" } :=
  ⟨rfl, rfl, rfl⟩

/-- C4 (amended): a worker-dispatch exception is caught inside
`execute_task` and converted into a result dict with status `error` and the
exception message under `error`; `execute_workflow` then still runs
`complete_task`, so the task ends `COMPLETED` (there is no `FAILED` task
state or `error_message` attribute), the error-shaped result is persisted as
the `RESULT#` item, and no exception propagates out of `execute_workflow`
(its return dict reports `completed` or `investigation_completed`). -/
theorem c4_dispatch_error_no_propagation (s : StoreState) (c : ContextItem)
    (e ts : String) (q : Bool) (task : TaskRecord)
    (h : get_next_task s = some task) :
    task_status (execute_workflow s c (Except.error e) ts q).store task.task_id
      = some "COMPLETED"
    ∧ getAssoc (execute_workflow s c (Except.error e) ts q).store.results task.task_id
        = some { status := "error", message := none, error := some e }
    ∧ ((execute_workflow s c (Except.error e) ts q).ret.status = "completed"
        ∨ (execute_workflow s c (Except.error e) ts q).ret.status = "investigation_completed") := by
  unfold execute_workflow
  rw [h]
  by_cases ha : task.agent_type = "RootCauseAnalysisAgent" <;>
    simp [ha, execute_task, complete_task_status_self, complete_task_result_self]

/-- C4 witness: concrete run on `okPlan` with a raising dispatch. -/
theorem c4_dispatch_error_no_propagation_witness :
    task_status (execute_workflow (save_workflow okPlan) ctx0 (Except.error "boom") "ts1" true).store "t1"
      = some "COMPLETED"
    ∧ getAssoc (execute_workflow (save_workflow okPlan) ctx0 (Except.error "boom") "ts1" true).store.results "t1"
        = some { status := "error", message := none, error := some "boom" }
    ∧ ((execute_workflow (save_workflow okPlan) ctx0 (Except.error "boom") "ts1" true).ret.status = "completed"
        ∨ (execute_workflow (save_workflow okPlan) ctx0 (Except.error "boom") "ts1" true).ret.status = "investigation_completed") :=
  c4_dispatch_error_no_propagation (save_workflow okPlan) ctx0 "boom" "ts1" true
    { task_id := "t1", agent_type := "MetricsAgent", description := "analyze metric",
      priority := 1, status := "PENDING" }
    rfl

/-! ## Claim C5 -/

/-- The trace of one executor invocation on `prioPlan` with a successful
dispatch. -/
def c5trace : List ExecEvent :=
  (execute_workflow (save_workflow prioPlan) ctx0 (Except.ok "msg") "ts2" true).trace

/-- C5, counterexample: in a concrete invocation that processes a task, the
Context writes (`update_finding`, `add_timeline_event`) occur strictly
before `complete_task` in the effect trace — the opposite of the claimed
order. -/
theorem c5_order_counterexample :
    c5trace = [ExecEvent.getNextTask,
               ExecEvent.updateFinding "A" "MetricsAgent",
               ExecEvent.addTimelineEvent "Task A completed by MetricsAgent" "MetricsAgent",
               ExecEvent.completeTask "A",
               ExecEvent.sendSqsReEvaluate]
    ∧ c5trace.indexOf (ExecEvent.updateFinding "A" "MetricsAgent")
        < c5trace.indexOf (ExecEvent.completeTask "A") := by
  refine ⟨rfl, by decide⟩

/-- C5 (amended): in every invocation that processes a task, the effect
order is `get_next_task`, then the two Context writes (`update_finding`,
`add_timeline_event`), then the queue transition `complete_task` — so a
crash between them leaves the Context updated while the task is still not
`COMPLETED`, the reverse of the spec's claimed window. -/
theorem c5_context_writes_before_complete (s : StoreState) (c : ContextItem)
    (dispatch : Except String String) (ts : String) (q : Bool) (task : TaskRecord)
    (h : get_next_task s = some task) :
    ∃ rest, (execute_workflow s c dispatch ts q).trace
      = ExecEvent.getNextTask
        :: ExecEvent.updateFinding task.task_id task.agent_type
        :: ExecEvent.addTimelineEvent
             ("Task " ++ task.task_id ++ " completed by " ++ task.agent_type)
             task.agent_type
        :: ExecEvent.completeTask task.task_id
        :: rest := by
  unfold execute_workflow
  rw [h]
  by_cases ha : task.agent_type = "RootCauseAnalysisAgent"
  · exact ⟨[ExecEvent.updateStatus "COMPLETED"], by simp [ha]⟩
  · exact ⟨if q then [ExecEvent.sendSqsReEvaluate] else [], by simp [ha]⟩

/-- C5 witness: concrete run on `prioPlan`. -/
theorem c5_context_writes_before_complete_witness :
    ∃ rest, (execute_workflow (save_workflow prioPlan) ctx0 (Except.ok "msg") "ts2" true).trace
      = ExecEvent.getNextTask
        :: ExecEvent.updateFinding "A" "MetricsAgent"
        :: ExecEvent.addTimelineEvent "Task A completed by MetricsAgent" "MetricsAgent"
        :: ExecEvent.completeTask "A"
        :: rest :=
  c5_context_writes_before_complete (save_workflow prioPlan) ctx0 (Except.ok "msg") "ts2" true
    { task_id := "A", agent_type := "MetricsAgent", description := "analyze metric",
      priority := 2, status := "PENDING" }
    rfl

/-! ## Claim C6 -/

/-- C6 (confirmed): constructing an `ExecutionResult` with
`confidence_score` outside [0,1] fails with the `ValueError` message, and
every successfully constructed result carries a score in [0,1] that equals
the supplied value exactly — never clamped. -/
theorem c6_confidence_range_enforced (step_id : String) (status : ExecutionStatus)
    (findings : List (String × String)) (c : Rat) (nrs : List String) (et : Rat)
    (em : Option String) :
    (¬(0 ≤ c ∧ c ≤ 1) →
      mkExecutionResult step_id status findings c nrs et em
        = Except.error "Confidence score must be between 0.0 and 1.0")
    ∧ ∀ r, mkExecutionResult step_id status findings c nrs et em = Except.ok r →
        0 ≤ r.confidence_score ∧ r.confidence_score ≤ 1 ∧ r.confidence_score = c := by
  constructor
  · intro h
    unfold mkExecutionResult
    rw [if_neg h]
  · intro r hr
    unfold mkExecutionResult at hr
    by_cases h : 0 ≤ c ∧ c ≤ 1
    · rw [if_pos h] at hr
      have heq := Except.ok.inj hr
      refine ⟨?_, ?_, ?_⟩ <;> simp [← heq, h.1, h.2]
    · rw [if_neg h] at hr
      exact absurd hr (by simp)

/-- C6 witness: confidence 3/2 is rejected; confidence 1/2 is accepted and
stored exactly. -/
theorem c6_confidence_range_enforced_witness :
    mkExecutionResult "step_1" ExecutionStatus.completed [] (3 / 2) [] 0 none
      = Except.error "Confidence score must be between 0.0 and 1.0"
    ∧ ((0 : Rat) ≤ 1 / 2 ∧ (1 : Rat) / 2 ≤ 1 ∧ (1 : Rat) / 2 = 1 / 2) := by
  constructor
  · exact (c6_confidence_range_enforced "step_1" ExecutionStatus.completed [] (3 / 2)
      [] 0 none).1 (by norm_num)
  · exact (c6_confidence_range_enforced "step_1" ExecutionStatus.completed [] (1 / 2)
      [] 0 none).2
      { step_id := "step_1", status := ExecutionStatus.completed, findings := [],
        confidence_score := 1 / 2, next_recommended_steps := [], execution_time := 0,
        error_message := none }
      (by norm_num [mkExecutionResult])

/-! ## Claim C7 -/

/-- C7 (confirmed): each of the four mutating Context operations
(`update_finding`, `add_timeline_event`, `update_hypothesis`,
`update_status`) increments the version counter by exactly one, and the
read-only `get_context` leaves the stored row (hence its version)
unchanged. -/
theorem c7_version_increments (c : ContextItem) (task_id agent_type : String)
    (finding_data : FindingData) (event source hyp stat ts : String)
    (confidence : Rat) (candidates : List String) (store : Option ContextItem) :
    (update_finding c task_id agent_type finding_data ts).version = c.version + 1
    ∧ (add_timeline_event c event source ts).version = c.version + 1
    ∧ (update_hypothesis c hyp confidence candidates ts).version = c.version + 1
    ∧ (update_status c stat ts).version = c.version + 1
    ∧ get_context store = store :=
  ⟨rfl, rfl, rfl, rfl, rfl⟩

/-! ## Claim C8 -/

/-- A context row that has progressed past creation: one hypothesis update
applied to the fresh row. -/
def busyCtx : ContextItem := update_hypothesis ctx0 "disk full" (1 / 2) ["disk"] "t1"

/-- C8, counterexample: a second `create_context` for an id whose context
has already progressed (version 1, hypothesis recorded) silently replaces it
with a fresh row — version 0, empty findings, empty hypothesis — rather than
failing; no `AlreadyExistsError` exists anywhere in the code. -/
theorem c8_create_overwrites_counterexample :
    busyCtx.version = 1
    ∧ busyCtx.current_hypothesis = "disk full"
    ∧ create_context (some busyCtx) "inv-1" "HighCPU again" "t2"
        = some { investigation_id := "inv-1", alarm_summary := "HighCPU again",
                 status := "IN_PROGRESS", confidence := 0, current_hypothesis := "",
                 root_cause_candidates := [], findings := [], timeline := [],
                 created_at := "t2", updated_at := "t2", version := 0 } :=
  ⟨rfl, rfl, rfl⟩

/-- C8 (amended): `create_context` initializes the row with status
`IN_PROGRESS`, confidence 0.0, empty findings, empty timeline and version 0;
but it is an unconditional `put_item`, so for any pre-existing row it
silently overwrites instead of failing — there is no `AlreadyExistsError`. -/
theorem c8_create_initializes (prior : Option ContextItem)
    (investigation_id alarm_summary ts : String) :
    ∃ fresh, create_context prior investigation_id alarm_summary ts = some fresh
      ∧ fresh.confidence = 0 ∧ fresh.findings = [] ∧ fresh.timeline = []
      ∧ fresh.version = 0 ∧ fresh.status = "IN_PROGRESS"
      ∧ fresh.investigation_id = investigation_id :=
  ⟨_, rfl, rfl, rfl, rfl, rfl, rfl, rfl⟩

/-! ## Claim C9 -/

/-- C9, counterexample: `update_hypothesis` accepts the out-of-range
confidence 3/2, stores it verbatim and bumps the version — no rejection of
any kind occurs before (or instead of) the mutation. -/
theorem c9_no_validation_counterexample :
    (update_hypothesis ctx0 "cpu spike" (3 / 2) ["cpu"] "t1").confidence = 3 / 2
    ∧ (update_hypothesis ctx0 "cpu spike" (3 / 2) ["cpu"] "t1").version = ctx0.version + 1
    ∧ ¬((3 : Rat) / 2 ≤ 1) := by
  refine ⟨rfl, rfl, by norm_num⟩

/-- C9 (amended): `update_hypothesis` performs no validation whatsoever: for
every confidence value — in range or not — it stores the hypothesis,
confidence and candidates as supplied and increments the version. -/
theorem c9_update_hypothesis_unvalidated (c : ContextItem) (hyp : String)
    (confidence : Rat) (candidates : List String) (ts : String) :
    (update_hypothesis c hyp confidence candidates ts).confidence = confidence
    ∧ (update_hypothesis c hyp confidence candidates ts).current_hypothesis = hyp
    ∧ (update_hypothesis c hyp confidence candidates ts).root_cause_candidates = candidates
    ∧ (update_hypothesis c hyp confidence candidates ts).version = c.version + 1 :=
  ⟨rfl, rfl, rfl, rfl⟩

/-! ## Claim C10 -/

/-- C10: evaluating `invoke` at the failing inputs.  A default/`ALARM`
payload and a `RE_EVALUATE` payload both hit `BrainAgent()` — whose
`__init__` requires the positional argument `system_state` — so a
`TypeError` escapes the entry point unconverted, contradicting the claim
that every message yields a converted status result (the `EXECUTION` path,
by contrast, does return one). -/
theorem c10_alarm_message_raises_typeerror :
    invoke { message_type := none, investigation_id := none,
             alarm := some "HighCPUUtilization alarm fired", prompt := none }
        (fun oid => { status := "no_tasks", task_id := oid, error := none })
      = Except.error "TypeError: BrainAgent.__init__ missing 1 required positional argument: system_state"
    ∧ invoke { message_type := some "RE_EVALUATE", investigation_id := some "inv-1",
               alarm := none, prompt := none }
        (fun oid => { status := "no_tasks", task_id := oid, error := none })
      = Except.error "TypeError: BrainAgent.__init__ missing 1 required positional argument: system_state"
    ∧ invoke { message_type := some "EXECUTION", investigation_id := some "inv-1",
               alarm := none, prompt := none }
        (fun oid => { status := "no_tasks", task_id := oid, error := none })
      = Except.ok { investigation_id := some "inv-1", status := "execution_ongoing",
                    result := some { status := "no_tasks", task_id := some "inv-1",
                                     error := none } } :=
  ⟨rfl, rfl, rfl⟩

end Aiops
